import Mathlib

/-!
Shallow embedding of the Milvus datastore adapter
(`datastore/providers/milvus_custom_datastore.py`) and the spec's data
model, together with proofs about its upsert, query, delete and filter
compilation logic.

Conventions of the embedding:
* Python `None` and the `Required` sentinel class are constructors of
  `FieldValue`; Python truthiness is `FieldValue.truthy`.
* Vector components (the embedding floats) are carried opaquely as `Int`;
  the adapter never computes with them, it only moves them around and
  tests emptiness of the vector list.
* Similarity scores are likewise carried opaquely as `Int`.
* The timestamp normalizer `to_unix_timestamp` (module `services/date`,
  not part of the adapter) is a parameter `ts : String → Int` of every
  definition that uses it.
* The external store (Milvus collection handle) is a parameter: inserts
  are a fallible function `Batch → Except ε Unit`, searches and
  pk-lookups are oracles supplied to the corresponding operation.
-/

/-- The value space of the flat per-chunk record and of the schema
defaults: Python strings, ints, float-vectors, `None`, and the
`Required` sentinel class used as a default marker in `SCHEMA`. -/
inductive FieldValue where
  | vnull : FieldValue
  | vstr : String → FieldValue
  | vint : Int → FieldValue
  | vvec : List Int → FieldValue
  | required : FieldValue
deriving DecidableEq, Repr

/-- Python truthiness on `FieldValue`: `None` is falsy, a string is truthy
iff nonempty, an int iff nonzero, a list iff nonempty; the `Required`
class object is truthy. -/
def FieldValue.truthy : FieldValue → Bool
  | .vnull => false
  | .vstr s => s ≠ ""
  | .vint n => n ≠ 0
  | .vvec v => v ≠ []
  | .required => true

/-- Python `a or b`: `a` when `a` is truthy, else `b`. -/
def pyOr (a b : FieldValue) : FieldValue :=
  if a.truthy then a else b

/-- Modelled from the spec: the `Source` metadata enum (`models/models.py`
is not in the sources; §3 gives "enum{optional named values}"). Member
names mirror the upstream retrieval-plugin enum, each member's string
value equal to its name, as required by the adapter's use of
`Source.__members__` on stored string values. -/
inductive Source where
  | email : Source
  | file : Source
  | chat : Source
deriving DecidableEq, Repr

/-- The `.value` attribute of a `Source` member. -/
def Source.value : Source → String
  | .email => "email"
  | .file => "file"
  | .chat => "chat"

/-- The member names of the `Source` enum (`Source.__members__` keys). -/
def sourceMemberNames : List String := ["email", "file", "chat"]

/-- Decode a member name back to the enum member (what the metadata model
does with a stored `source` string that passed the membership check). -/
def Source.fromName : String → Option Source
  | "email" => some Source.email
  | "file" => some Source.file
  | "chat" => some Source.chat
  | _ => none

/-- Modelled from the spec: chunk metadata (§3), `models/models.py` not in
the sources. Every field optional, absence = Python `None`. `created_at`
is the caller-supplied timestamp string before normalization. -/
structure DocumentChunkMetadata where
  document_id : Option String := none
  source_id : Option String := none
  source : Option Source := none
  url : Option String := none
  created_at : Option String := none
  author : Option String := none
deriving DecidableEq, Repr

/-- Modelled from the spec: a document chunk (§3), `models/models.py` not
in the sources. `text` is required by the model; `id` and `embedding`
may be absent. -/
structure DocumentChunk where
  id : Option String := none
  text : String
  embedding : Option (List Int) := none
  metadata : DocumentChunkMetadata
deriving DecidableEq, Repr

/-- `UPSERT_BATCH_SIZE` from the adapter module. -/
def UPSERT_BATCH_SIZE : Nat := 100

/-- The `SCHEMA` list of the adapter, reduced to the pair
(field name, default-or-required marker); the Milvus `FieldSchema`
declaration in the middle of each source triple only configures the
store and carries no adapter-visible behavior. Order is the source's. -/
def SCHEMA : List (String × FieldValue) :=
  [ ("pk", .required),
    ("embedding", .required),
    ("text", .required),
    ("document_id", .vstr ""),
    ("source_id", .vstr ""),
    ("id", .vstr ""),
    ("source", .vstr ""),
    ("url", .vstr ""),
    ("created_at", .vint (-1)),
    ("author", .vstr "") ]

/-- Lift an optional string into the flat record's value space. -/
def optStr : Option String → FieldValue
  | none => .vnull
  | some s => .vstr s

/-- The flat record built at the start of `_get_values`: `chunk.dict()`
with the metadata dict merged in, then `created_at` replaced by
`to_unix_timestamp` when truthy and `source` replaced by its `.value`
when truthy; lookup of an unknown key is `None` (`dict.get`). -/
def chunkValues (ts : String → Int) (c : DocumentChunk) (key : String) : FieldValue :=
  if key = "id" then optStr c.id
  else if key = "text" then .vstr c.text
  else if key = "embedding" then
    match c.embedding with
    | none => .vnull
    | some v => .vvec v
  else if key = "document_id" then optStr c.metadata.document_id
  else if key = "source_id" then optStr c.metadata.source_id
  else if key = "source" then
    match c.metadata.source with
    | none => .vnull
    | some s => .vstr s.value
  else if key = "url" then optStr c.metadata.url
  else if key = "created_at" then
    match c.metadata.created_at with
    | none => .vnull
    | some s => if s = "" then .vstr s else .vint (ts s)
  else if key = "author" then optStr c.metadata.author
  else .vnull

/-- The field loop of `_get_values`: for each schema field (primary key
excluded), take `values.get(key) or default`; if that yields the
`Required` marker the whole chunk is rejected (`None`). -/
def getValuesAux (vals : String → FieldValue) :
    List (String × FieldValue) → Option (List FieldValue)
  | [] => some []
  | (key, dflt) :: rest =>
    let x := pyOr (vals key) dflt
    if x = FieldValue.required then none
    else (getValuesAux vals rest).map (fun r => x :: r)

/-- `_get_values`: the positional value row of a chunk, aligned with
`SCHEMA[1:]`, or `none` when a required field is missing/falsy. -/
def getValues (ts : String → Int) (c : DocumentChunk) : Option (List FieldValue) :=
  getValuesAux (chunkValues ts c) SCHEMA.tail

/-- A columnar insert batch: one list of values per schema field. -/
abbrev Batch := List (List FieldValue)

instance {ε α : Type _} [DecidableEq ε] [DecidableEq α] :
    DecidableEq (Except ε α) := fun a b =>
  match a, b with
  | Except.ok x, Except.ok y =>
    if h : x = y then Decidable.isTrue (by rw [h])
    else Decidable.isFalse (by simp [h])
  | Except.ok _, Except.error _ => Decidable.isFalse (by simp)
  | Except.error _, Except.ok _ => Decidable.isFalse (by simp)
  | Except.error x, Except.error y =>
    if h : x = y then Decidable.isTrue (by rw [h])
    else Decidable.isFalse (by simp [h])

/-- One pass of `insert_data[x].append(list_of_data[x])` over all column
indices: append the row's x-th value to the x-th column. -/
def appendRow (cols : List (List FieldValue)) (row : List FieldValue) :
    List (List FieldValue) :=
  cols.zipWith (fun col v => col ++ [v]) row

/-- Python `range(0, stop, step)` for `step ≥ 1`: the multiples of `step`
below `stop`, i.e. `ceil(stop / step)` of them. -/
def pyRange (stop step : Nat) : List Nat :=
  (List.range ((stop + step - 1) / step)).map (fun i => i * step)

/-- Python list slicing into consecutive pieces:
`[l[i : i + size] for i in range(0, len(l), size)]` (for `size ≥ 1`). -/
def sliceBatches (size : Nat) (l : List α) : List (List α) :=
  (pyRange l.length size).map (fun i => (l.drop i).take size)

/-- The guard `len(batch[0]) != 0` of the insert loop. -/
def batchNonempty (b : Batch) : Bool := (b.headD []).length != 0

/-- The insert loop of `_upsert`: for each batch whose first column is
nonempty, call the store's insert; an exception aborts the loop and is
re-raised. Returns the outcome together with the batches that were
successfully inserted before any failure (they are never rolled back). -/
def runBatches (ins : Batch → Except ε Unit) :
    List Batch → Except ε Unit × List Batch
  | [] => (Except.ok (), [])
  | b :: rest =>
    if batchNonempty b then
      match ins b with
      | Except.ok _ =>
        let r := runBatches ins rest
        (r.1, b :: r.2)
      | Except.error e => (Except.error e, [])
    else runBatches ins rest

/-- The inner loop body of `_upsert`: a chunk whose `_get_values` row is
valid has the row appended column-wise; an invalid chunk is skipped. -/
def chunkStep (ts : String → Int)
    (a : List String × List (List FieldValue)) (c : DocumentChunk) :
    List String × List (List FieldValue) :=
  match getValues ts c with
  | some row => (a.1, appendRow a.2 row)
  | none => a

/-- The outer loop body of `_upsert`: unconditionally append the key to
`doc_ids`, then fold the key's chunk list. -/
def upsertStep (ts : String → Int)
    (acc : List String × List (List FieldValue))
    (p : String × List DocumentChunk) :
    List String × List (List FieldValue) :=
  p.2.foldl (chunkStep ts) (acc.1 ++ [p.1], acc.2)

/-- `_upsert`: accumulate `doc_ids` (one per input key, unconditionally)
and the surviving chunk rows as columns aligned with `SCHEMA[1:]`; slice
the column list into pieces of `UPSERT_BATCH_SIZE`; run the insert loop.
Result: the returned id list (or the propagated exception) and the list
of successfully inserted batches. -/
def upsertRun (ts : String → Int) (ins : Batch → Except ε Unit)
    (chunks : List (String × List DocumentChunk)) :
    Except ε (List String) × List Batch :=
  let init : List String × List (List FieldValue) :=
    ([], List.replicate (SCHEMA.length - 1) [])
  let acc := chunks.foldl (upsertStep ts) init
  let batches := sliceBatches UPSERT_BATCH_SIZE acc.2
  let run := runBatches ins batches
  (run.1.map (fun _ => acc.1), run.2)

/-- The insert calls `_upsert` makes when the store never fails: the
nonempty batches, in order. -/
def upsertCalls (ts : String → Int)
    (chunks : List (String × List DocumentChunk)) : List Batch :=
  (upsertRun (ε := Unit) ts (fun _ => Except.ok ()) chunks).2

/-- The rows that survive `_get_values` validation, in encounter order
(key order of the input mapping, then chunk order within a key). -/
def survivingRows (ts : String → Int)
    (chunks : List (String × List DocumentChunk)) : List (List FieldValue) :=
  chunks.flatMap (fun p => p.2.filterMap (getValues ts))

/-- A constant timestamp normalizer, used to instantiate the
`to_unix_timestamp` parameter in concrete evaluations. -/
def tsConst (n : Int) : String → Int := fun _ => n

/-- Modelled from the spec: a metadata filter (§3),
`models/models.py` not in the sources. Field set and declaration order
(the order `filter.dict().items()` iterates) follow the spec's listing:
document id, source id, source, author, start date, end date; every
field optional, absence = `None` = no constraint. -/
structure DocumentMetadataFilter where
  document_id : Option String := none
  source_id : Option String := none
  source : Option Source := none
  author : Option String := none
  start_date : Option String := none
  end_date : Option String := none
deriving DecidableEq, Repr

/-- The predicate list `_get_filter` builds: one predicate per
non-`None` field, in field declaration order. -/
def filterPredicates (ts : String → Int) (f : DocumentMetadataFilter) :
    List String :=
  (match f.document_id with
   | some v => ["(document_id == \"" ++ v ++ "\")"]
   | none => []) ++
  (match f.source_id with
   | some v => ["(source_id == \"" ++ v ++ "\")"]
   | none => []) ++
  (match f.source with
   | some v => ["(source == \"" ++ v.value ++ "\")"]
   | none => []) ++
  (match f.author with
   | some v => ["(author == \"" ++ v ++ "\")"]
   | none => []) ++
  (match f.start_date with
   | some v => ["(created_at >= " ++ toString (ts v) ++ ")"]
   | none => []) ++
  (match f.end_date with
   | some v => ["(created_at <= " ++ toString (ts v) ++ ")"]
   | none => [])

/-- `_get_filter`: the predicates joined with `" and "` (the empty string
when no field is set). -/
def getFilter (ts : String → Int) (f : DocumentMetadataFilter) : String :=
  String.intercalate " and " (filterPredicates ts f)

/-- The `output_fields` argument of the similarity search:
`[field[0] for field in SCHEMA[2:]]`. -/
def outputFields : List String := (SCHEMA.drop 2).map Prod.fst

/-- One raw hit of the store's similarity search: a distance score and
the per-field values of the matched row (`hit.entity.get`). -/
structure Hit where
  score : Int
  values : String → FieldValue

/-- Pydantic-style decoding of a returned value into an optional string
metadata field: strings stay, ints render in decimal, `None` stays
absent. Modelled from the spec: the metadata model's string fields
(`models/models.py` not in the sources). -/
def asOptStr : FieldValue → Option String
  | .vstr s => some s
  | .vint n => some (toString n)
  | _ => none

/-- Decoding of the returned `text` value into the chunk's required
string field. -/
def asStr : FieldValue → String
  | .vstr s => s
  | .vint n => toString n
  | _ => ""

/-- Is the returned `source` value a key of `Source.__members__`?
(Only a string can be; member names equal member values.) -/
def FieldValue.isSourceMember : FieldValue → Bool
  | .vstr s => s ∈ sourceMemberNames
  | _ => false

/-- Decode a returned `source` value into the enum, after the membership
check has nulled out non-members. -/
def decodeSource : FieldValue → Option Source
  | .vstr s => Source.fromName s
  | _ => none

/-- Modelled from the spec: a chunk-with-score result (§3). -/
structure DocumentChunkWithScore where
  id : Option String := none
  text : String
  score : Int
  metadata : DocumentChunkMetadata
deriving DecidableEq, Repr

/-- The per-hit reassembly loop body of `_single_query`: collect the
values of every `SCHEMA[2:]` field into a metadata record, null out a
`source` that is not an enum member, pop `text` and `id` out, and build
the typed chunk-with-score. -/
def processHit (h : Hit) : DocumentChunkWithScore :=
  let sourceVal := h.values "source"
  let sourceKept := if sourceVal.isSourceMember then sourceVal else FieldValue.vnull
  { id := asOptStr (h.values "id")
    text := asStr (h.values "text")
    score := h.score
    metadata :=
      { document_id := asOptStr (h.values "document_id")
        source_id := asOptStr (h.values "source_id")
        source := decodeSource sourceKept
        url := asOptStr (h.values "url")
        created_at := asOptStr (h.values "created_at")
        author := asOptStr (h.values "author") } }

/-- The hit loop of `_single_query`: every hit is reassembled and
appended, none is dropped. -/
def processHits (hits : List Hit) : List DocumentChunkWithScore :=
  hits.map processHit

/-- Modelled from the spec: a query with embedding (§3). -/
structure QueryWithEmbedding where
  query : String
  embedding : List Int
  top_k : Nat
  filter : Option DocumentMetadataFilter := none

/-- Modelled from the spec: a per-query result (§3). -/
structure QueryResult where
  query : String
  results : List DocumentChunkWithScore

/-- The store's similarity search as an oracle: embedding, `top_k`,
compiled filter expression (`none` when the query carries no filter) and
requested output fields, to ranked hits. -/
abbrev SearchFn := List Int → Nat → Option String → List String → List Hit

/-- `_single_query`: compile the filter if present, search with the
non-excluded schema fields as output fields, reassemble every hit. -/
def singleQuery (ts : String → Int) (search : SearchFn)
    (q : QueryWithEmbedding) : QueryResult :=
  let filt : Option String := q.filter.map (getFilter ts)
  let hits := search q.embedding q.top_k filt outputFields
  { query := q.query, results := processHits hits }

/-- `_query`: one search per input query; `asyncio.gather` collects the
per-query results back into input order, which the deterministic map
renders. -/
def queryOp (ts : String → Int) (search : SearchFn)
    (queries : List QueryWithEmbedding) : List QueryResult :=
  queries.map (singleQuery ts search)

/-- The store effects `delete` can perform, in order. -/
inductive DeleteAction where
  | release : DeleteAction
  | drop : DeleteAction
  | recreate : DeleteAction
  | queryPks : String → DeleteAction
  | deletePks : String → DeleteAction
deriving DecidableEq, Repr

/-- Python truthiness of an `Optional[bool]` argument. -/
def pyTruthyOptBool : Option Bool → Bool
  | some b => b
  | none => false

/-- The pk-in-expression built for a list of primary keys. -/
def pkInExpr (pks : List Int) : String :=
  "pk in [" ++ String.intercalate "," (pks.map toString) ++ "]"

/-- `delete`: with truthy `delete_all`, release + drop + recreate and
return immediately; otherwise run the ids path (non-empty `ids`: quote
and join them into a `document_id in [...]` lookup, then delete the
returned pks when any) and the filter path (filter present and compiling
to a non-empty expression: look up pks, then delete when any). The store
lookup is the oracle `store : expression → matching pks`. Always returns
`true`. -/
def deleteOp (ts : String → Int) (store : String → List Int)
    (ids : Option (List String)) (filt : Option DocumentMetadataFilter)
    (delete_all : Option Bool) : Bool × List DeleteAction :=
  if pyTruthyOptBool delete_all then
    (true, [DeleteAction.release, DeleteAction.drop, DeleteAction.recreate])
  else
    let idActs : List DeleteAction :=
      match ids with
      | some l =>
        if l.length ≠ 0 then
          let quoted := l.map (fun id => "\"" ++ id ++ "\"")
          let lookup := "document_id in [" ++ String.intercalate "," quoted ++ "]"
          let pks := store lookup
          if pks.length ≠ 0 then
            [DeleteAction.queryPks lookup, DeleteAction.deletePks (pkInExpr pks)]
          else [DeleteAction.queryPks lookup]
        else []
      | none => []
    let filtActs : List DeleteAction :=
      match filt with
      | some f =>
        let e := getFilter ts f
        if e.length ≠ 0 then
          let pks := store e
          if pks.length ≠ 0 then
            [DeleteAction.queryPks e, DeleteAction.deletePks (pkInExpr pks)]
          else [DeleteAction.queryPks e]
        else []
      | none => []
    (true, idActs ++ filtActs)

/-- An empty search oracle, used to instantiate witnesses. -/
def searchNone : SearchFn := fun _ _ _ _ => []

/-- A sample query used in witnesses. -/
def qEx : QueryWithEmbedding := { query := "q", embedding := [1], top_k := 3 }

/-- An insert oracle that always succeeds (error type `Unit`). -/
def insOk : Batch → Except Unit Unit := fun _ => Except.ok ()

/-- An insert oracle that always fails with error 7. -/
def insErr : Batch → Except Nat Unit := fun _ => Except.error 7

/-- A chunk whose required `text` field is empty, hence skipped by
`_get_values`. -/
def badChunk : DocumentChunk :=
  { id := some "b", text := "", embedding := some [1], metadata := {} }

/-- An upsert input whose every chunk is skipped. -/
def exSkipped : List (String × List DocumentChunk) :=
  [("d1", [badChunk]), ("d2", [])]

/-- A chunk with every field populated and non-falsy. -/
def fullChunk : DocumentChunk :=
  { id := some "c", text := "t", embedding := some [1],
    metadata := { document_id := some "d", source_id := some "s",
                  source := some Source.email, url := some "u",
                  created_at := some "2023-01-01", author := some "a" } }

/-- An upsert input with a single valid chunk. -/
def exOne : List (String × List DocumentChunk) := [("d", [fullChunk])]

/-- An upsert input of 101 valid chunks under one key. -/
def ex101 : List (String × List DocumentChunk) :=
  [("d", List.replicate 101 fullChunk)]

/-- A hit whose `source` value is not an enum member. -/
def hitBad : Hit :=
  { score := 0,
    values := fun k =>
      if k = "source" then FieldValue.vstr "bogus" else FieldValue.vstr "x" }

/-- A chunk whose `text` is present but empty — falsy, hence skipped. -/
def emptyTextChunk : DocumentChunk :=
  { id := some "e", text := "", embedding := some [1],
    metadata := { document_id := some "d" } }

/-- A chunk whose `embedding` is present but the empty list. -/
def emptyEmbChunk : DocumentChunk :=
  { id := some "e", text := "t", embedding := some [],
    metadata := { document_id := some "d" } }

/-- Position of a key among a list of declared fields. -/
def fieldIndex (key : String) : List (String × FieldValue) → Option Nat
  | [] => none
  | (k, _) :: rest =>
    if k = key then some 0 else (fieldIndex key rest).map (fun n => n + 1)

/-- A stored row re-exposed as a query hit: `hit.entity.get(key)` yields
the value at the key's position of the inserted positional row (the
`SCHEMA[1:]` alignment used by `_get_values`), the auto primary key
aside. This composes the upsert side with the query side for the
round-trip property. -/
def rowToHit (row : List FieldValue) (score : Int) : Hit :=
  { score := score
    values := fun key =>
      match fieldIndex key SCHEMA.tail with
      | some i => row.getD i FieldValue.vnull
      | none => FieldValue.vnull }

/-- The round-trip property exactly as the spec states it: reassembling
the flattened row yields the originally inserted `text`, `id` and
metadata (score aside). -/
def roundTripExact (ts : String → Int) (score : Int) (c : DocumentChunk) :
    Prop :=
  ∀ row, getValues ts c = some row →
    processHit (rowToHit row score) =
      { id := c.id, text := c.text, score := score, metadata := c.metadata }

/-- All fields of a chunk populated and non-falsy. -/
def fullyPopulated (c : DocumentChunk) : Prop :=
  c.id.isSome ∧ c.text ≠ "" ∧ (∃ v, c.embedding = some v ∧ v ≠ []) ∧
  c.metadata.document_id.isSome ∧ c.metadata.source_id.isSome ∧
  c.metadata.source.isSome ∧ c.metadata.url.isSome ∧
  (∃ s, c.metadata.created_at = some s ∧ s ≠ "") ∧
  c.metadata.author.isSome

lemma intercalate_nil (s : String) : String.intercalate s [] = "" := rfl

lemma intercalate_singleton (s a : String) : String.intercalate s [a] = a := rfl

lemma intercalate_cons₂ (s a b : String) (l : List String) :
    String.intercalate s (a :: b :: l) =
      a ++ s ++ String.intercalate s (b :: l) := by
  show String.intercalate.go a s (b :: l) = a ++ s ++ String.intercalate.go b s l
  induction l generalizing a b with
  | nil => rfl
  | cons x xs ih =>
    show String.intercalate.go (a ++ s ++ b) s (x :: xs) = _
    rw [ih (a ++ s ++ b) x, ih b x]
    simp [String.append_assoc]

/-- C2 (counterexample): the claim that the fields requested from the
store on query exclude the `text` field is false — `text` is the first
entry of `output_fields` (`SCHEMA[2:]` starts at `text`, and the hit
loop relies on it to pop the chunk text back out). -/
theorem c2_text_is_requested : "text" ∈ outputFields := by decide

/-- C2 (amended): the output fields of the similarity search are exactly
the `SCHEMA[2:]` field names — `text`, `document_id`, `source_id`, `id`,
`source`, `url`, `created_at`, `author` — so the embedding and the
primary key are excluded, but `text` is requested. -/
theorem c2_output_fields :
    outputFields = ["text", "document_id", "source_id", "id",
                    "source", "url", "created_at", "author"] ∧
    "embedding" ∉ outputFields ∧ "pk" ∉ outputFields := by
  decide

/-- C4: `_get_filter` emits one predicate of the documented form per set
field (dates against `created_at` with the normalized timestamp, the
source enum's string value, plain string equality otherwise), the empty
expression for an all-absent filter, and joins multiple predicates with
logical AND. -/
theorem c4_filter_compile (ts : String → Int) (v did sid a sd ed : String)
    (s : Source) :
    getFilter ts {} = "" ∧
    getFilter ts { start_date := some v } =
      "(created_at >= " ++ toString (ts v) ++ ")" ∧
    getFilter ts { end_date := some v } =
      "(created_at <= " ++ toString (ts v) ++ ")" ∧
    getFilter ts { source := some s } =
      "(source == \"" ++ s.value ++ "\")" ∧
    getFilter ts { document_id := some v } =
      "(document_id == \"" ++ v ++ "\")" ∧
    getFilter ts { source_id := some v } =
      "(source_id == \"" ++ v ++ "\")" ∧
    getFilter ts { author := some v } =
      "(author == \"" ++ v ++ "\")" ∧
    getFilter ts { document_id := some did, source_id := some sid,
                   source := some s, author := some a,
                   start_date := some sd, end_date := some ed } =
      "(document_id == \"" ++ did ++ "\")" ++ " and " ++
      "(source_id == \"" ++ sid ++ "\")" ++ " and " ++
      "(source == \"" ++ s.value ++ "\")" ++ " and " ++
      "(author == \"" ++ a ++ "\")" ++ " and " ++
      "(created_at >= " ++ toString (ts sd) ++ ")" ++ " and " ++
      "(created_at <= " ++ toString (ts ed) ++ ")" := by
  refine ⟨rfl, rfl, rfl, rfl, rfl, rfl, rfl, ?_⟩
  apply String.ext
  simp only [getFilter, filterPredicates, List.singleton_append,
    List.cons_append, List.nil_append]
  rw [intercalate_cons₂, intercalate_cons₂, intercalate_cons₂,
    intercalate_cons₂, intercalate_cons₂, intercalate_singleton]
  simp only [String.data_append, List.append_assoc]

/-- C7: `delete` returns `true` on completion for every combination of
arguments and store contents; with truthy `delete_all` it performs
exactly release, drop, recreate and returns immediately, making no
pk lookup and no pk delete. -/
theorem c7_delete_always_true (ts : String → Int) (store : String → List Int)
    (ids : Option (List String)) (filt : Option DocumentMetadataFilter)
    (da : Option Bool) :
    (deleteOp ts store ids filt da).1 = true ∧
    (da = some true →
      deleteOp ts store ids filt da =
        (true, [DeleteAction.release, DeleteAction.drop,
                DeleteAction.recreate])) := by
  constructor
  · cases h : pyTruthyOptBool da <;> simp [deleteOp, h]
  · intro h; subst h; rfl

/-- C7 witness: a concrete `delete_all` call. -/
theorem c7_witness :
    (deleteOp (tsConst 0) (fun _ => []) none none (some true)).1 = true ∧
    (some true = some true →
      deleteOp (tsConst 0) (fun _ => []) none none (some true) =
        (true, [DeleteAction.release, DeleteAction.drop,
                DeleteAction.recreate])) :=
  c7_delete_always_true (tsConst 0) (fun _ => []) none none (some true)

/-- C9: `_query` on the empty list returns the empty list; the result
list has one entry per input query, and the i-th result is the search
result of the i-th query — input order is preserved (the gather step's
deterministic result placement renders the fan-out an order-preserving
map). -/
theorem c9_query_order (ts : String → Int) (search : SearchFn)
    (queries : List QueryWithEmbedding) :
    queryOp ts search [] = [] ∧
    (queryOp ts search queries).length = queries.length ∧
    ∀ (i : Nat) (h1 : i < (queryOp ts search queries).length)
      (h2 : i < queries.length),
      (queryOp ts search queries).get ⟨i, h1⟩ =
        singleQuery ts search (queries.get ⟨i, h2⟩) := by
  refine ⟨rfl, List.length_map _ _, ?_⟩
  intro i h1 h2
  simp [queryOp]

lemma chunkStep_fst (ts : String → Int) (cl : List DocumentChunk)
    (a : List String × List (List FieldValue)) :
    (cl.foldl (chunkStep ts) a).1 = a.1 := by
  induction cl generalizing a with
  | nil => rfl
  | cons c cs ih =>
    rw [List.foldl_cons, ih]
    cases h : getValues ts c <;> simp [chunkStep, h]

lemma upsertFold_fst (ts : String → Int)
    (chunks : List (String × List DocumentChunk))
    (init : List String × List (List FieldValue)) :
    (chunks.foldl (upsertStep ts) init).1 = init.1 ++ chunks.map Prod.fst := by
  induction chunks generalizing init with
  | nil => simp
  | cons p ps ih =>
    rw [List.foldl_cons, ih]
    simp [upsertStep, chunkStep_fst]

lemma chunkStep_skip_all (ts : String → Int) (cl : List DocumentChunk)
    (a : List String × List (List FieldValue))
    (h : ∀ c ∈ cl, getValues ts c = none) :
    cl.foldl (chunkStep ts) a = a := by
  induction cl generalizing a with
  | nil => rfl
  | cons c cs ih =>
    rw [List.foldl_cons,
      show chunkStep ts a c = a from by simp [chunkStep, h c (by simp)]]
    exact ih _ (fun c' hc => h c' (by simp [hc]))

lemma upsertFold_snd_skip_all (ts : String → Int)
    (chunks : List (String × List DocumentChunk))
    (init : List String × List (List FieldValue))
    (h : ∀ p ∈ chunks, ∀ c ∈ p.2, getValues ts c = none) :
    (chunks.foldl (upsertStep ts) init).2 = init.2 := by
  induction chunks generalizing init with
  | nil => rfl
  | cons p ps ih =>
    rw [List.foldl_cons,
      show upsertStep ts init p = (init.1 ++ [p.1], init.2) from
        chunkStep_skip_all ts p.2 _ (h p (by simp))]
    exact ih _ (fun q hq => h q (by simp [hq]))

lemma exceptMap_ok {ε α β : Type _} (x : Except ε α) (f : α → β) (r : β)
    (h : x.map f = Except.ok r) : ∃ a, x = Except.ok a ∧ r = f a := by
  cases x with
  | ok a =>
    refine ⟨a, rfl, ?_⟩
    simpa [Except.map] using h.symm
  | error e => simp [Except.map] at h

lemma runBatches_emptyCols {ε : Type _} (ins : Batch → Except ε Unit) :
    runBatches ins (sliceBatches UPSERT_BATCH_SIZE
      (List.replicate (SCHEMA.length - 1) ([] : List FieldValue))) =
    (Except.ok (), []) := rfl

/-- C3: whenever `_upsert` returns normally, the returned id list is
exactly the input mapping's keys, one per key in encounter order,
recorded unconditionally; in particular when every chunk of every key is
skipped for a missing required field, the call still returns all the
keys while making zero insert calls. -/
theorem c3_doc_ids_unconditional {ε : Type} (ts : String → Int)
    (ins : Batch → Except ε Unit)
    (chunks : List (String × List DocumentChunk)) :
    (∀ r, (upsertRun ts ins chunks).1 = Except.ok r →
      r = chunks.map Prod.fst) ∧
    ((∀ p ∈ chunks, ∀ c ∈ p.2, getValues ts c = none) →
      upsertRun ts ins chunks = (Except.ok (chunks.map Prod.fst), [])) := by
  have hfst := upsertFold_fst ts chunks ([], List.replicate (SCHEMA.length - 1) [])
  constructor
  · intro r hok
    simp only [upsertRun] at hok
    obtain ⟨a, _, hr⟩ := exceptMap_ok _ _ _ hok
    rw [hr, hfst]
    simp
  · intro hskip
    have hsnd := upsertFold_snd_skip_all ts chunks
      ([], List.replicate (SCHEMA.length - 1) []) hskip
    simp only [upsertRun]
    rw [hsnd]
    show (Except.map _ (runBatches ins (sliceBatches UPSERT_BATCH_SIZE
      (List.replicate (SCHEMA.length - 1) []))).1,
      (runBatches ins (sliceBatches UPSERT_BATCH_SIZE
        (List.replicate (SCHEMA.length - 1) []))).2) = _
    rw [runBatches_emptyCols]
    rw [hfst]
    simp [Except.map]

/-- C3 witness: both keys come back as upserted although nothing was
stored for either of them. -/
theorem c3_witness :
    (["d1", "d2"] : List String) = exSkipped.map Prod.fst ∧
    upsertRun (tsConst 0) insOk exSkipped =
      (Except.ok (exSkipped.map Prod.fst), []) :=
  ⟨(c3_doc_ids_unconditional (tsConst 0) insOk exSkipped).1
      ["d1", "d2"] (by decide),
   (c3_doc_ids_unconditional (tsConst 0) insOk exSkipped).2
      (by decide)⟩

lemma runBatches_ok_all {ε : Type _} (ins : Batch → Except ε Unit)
    (hok : ∀ b, ins b = Except.ok ()) (batches : List Batch) :
    runBatches ins batches = (Except.ok (), batches.filter batchNonempty) := by
  induction batches with
  | nil => rfl
  | cons b bs ih =>
    by_cases hb : batchNonempty b <;>
      simp [runBatches, hb, hok b, ih, List.filter_cons]

lemma upsertCalls_eq (ts : String → Int)
    (chunks : List (String × List DocumentChunk)) :
    upsertCalls ts chunks =
      (sliceBatches UPSERT_BATCH_SIZE
        ((chunks.foldl (upsertStep ts)
          ([], List.replicate (SCHEMA.length - 1) [])).2)).filter
        batchNonempty := by
  simp [upsertCalls, upsertRun, runBatches_ok_all _ (fun _ => rfl)]

lemma exceptMap_error {ε α β : Type _} (x : Except ε α) (f : α → β) (e : ε)
    (h : x.map f = Except.error e) : x = Except.error e := by
  cases x <;> simp_all [Except.map]

lemma runBatches_error_spec {ε : Type _} (ins : Batch → Except ε Unit)
    (batches : List Batch) (e : ε)
    (h : (runBatches ins batches).1 = Except.error e) :
    (batches.filter batchNonempty).take
        (runBatches ins batches).2.length = (runBatches ins batches).2 ∧
    (∀ b ∈ (runBatches ins batches).2, ins b = Except.ok ()) ∧
    ∃ b rest, (batches.filter batchNonempty).drop
        (runBatches ins batches).2.length = b :: rest ∧
      ins b = Except.error e := by
  induction batches with
  | nil => simp [runBatches] at h
  | cons b bs ih =>
    by_cases hb : batchNonempty b
    · cases hins : ins b with
      | ok u =>
        have hu : ins b = Except.ok () := by cases u; exact hins
        have hr : runBatches ins (b :: bs) =
            ((runBatches ins bs).1, b :: (runBatches ins bs).2) := by
          simp [runBatches, hb, hu]
        rw [hr] at h
        obtain ⟨ih1, ih2, b', rest', ihd, ihe⟩ := ih h
        rw [hr]
        refine ⟨?_, ?_, b', rest', ?_, ihe⟩
        · simp [List.filter_cons, hb, ih1]
        · intro x hx
          rcases List.mem_cons.mp hx with hx | hx
          · rw [hx]; exact hu
          · exact ih2 x hx
        · simpa [List.filter_cons, hb] using ihd
      | error e' =>
        have hr : runBatches ins (b :: bs) = (Except.error e', []) := by
          simp [runBatches, hb, hins]
        rw [hr] at h
        have he : e' = e := by simpa using h
        rw [hr]
        refine ⟨rfl, by simp, b, bs.filter batchNonempty, ?_, he ▸ hins⟩
        simp [List.filter_cons, hb]
    · have hr : runBatches ins (b :: bs) = runBatches ins bs := by
        simp [runBatches, hb]
      rw [hr] at h ⊢
      simpa [List.filter_cons, hb] using ih h

/-- C8: when a store insert raises during `_upsert`, the same exception
is surfaced to the caller, and the batches inserted before the failure
stand: the successfully-inserted trace is exactly the prefix of the
would-be insert calls before the failing one, every batch of it
succeeded, and the next attempted batch is the one whose insert produced
exactly the propagated error. -/
theorem c8_insert_error_propagation {ε : Type} (ts : String → Int)
    (ins : Batch → Except ε Unit)
    (chunks : List (String × List DocumentChunk)) (e : ε)
    (h : (upsertRun ts ins chunks).1 = Except.error e) :
    (upsertCalls ts chunks).take (upsertRun ts ins chunks).2.length =
      (upsertRun ts ins chunks).2 ∧
    (∀ b ∈ (upsertRun ts ins chunks).2, ins b = Except.ok ()) ∧
    ∃ b rest, (upsertCalls ts chunks).drop
        (upsertRun ts ins chunks).2.length = b :: rest ∧
      ins b = Except.error e := by
  simp only [upsertRun] at h
  have h' := exceptMap_error _ _ _ h
  have spec := runBatches_error_spec ins _ e h'
  rw [upsertCalls_eq]
  simp only [upsertRun]
  exact spec

/-- C8 witness: a failing store applied to one valid chunk. -/
theorem c8_witness :
    (upsertCalls (tsConst 1) exOne).take
        (upsertRun (tsConst 1) insErr exOne).2.length =
      (upsertRun (tsConst 1) insErr exOne).2 ∧
    (∀ b ∈ (upsertRun (tsConst 1) insErr exOne).2, insErr b = Except.ok ()) ∧
    ∃ b rest, (upsertCalls (tsConst 1) exOne).drop
        (upsertRun (tsConst 1) insErr exOne).2.length = b :: rest ∧
      insErr b = Except.error 7 :=
  c8_insert_error_propagation (tsConst 1) insErr exOne 7 (by decide)

/-- C1 (code bug exhibit): with 101 surviving chunks, `_upsert` makes a
single insert call whose first column holds all 101 rows, not
`ceil(101/100) = 2` calls of at most 100 rows each: the batching slices
the 9-element column list (`insert_data`), which is always shorter than
`UPSERT_BATCH_SIZE`, so at most one nonempty batch ever exists. -/
theorem c1_batching_divergence :
    (survivingRows (tsConst 1) ex101).length = 101 ∧
    (upsertCalls (tsConst 1) ex101).length = 1 ∧
    (((upsertCalls (tsConst 1) ex101).headD []).headD []).length = 101 ∧
    ((survivingRows (tsConst 1) ex101).length + UPSERT_BATCH_SIZE - 1) /
        UPSERT_BATCH_SIZE = 2 := by
  refine ⟨by decide, by decide, by decide, by decide⟩

/-- C5: a hit whose returned `source` value is not a declared enum
member is reassembled with `metadata.source = none`; the hit is still
included (the hit loop maps every hit, dropping none) and reassembly is
total — no exception. -/
theorem c5_unknown_source_nulled (hits : List Hit) (h : Hit)
    (hmem : h ∈ hits)
    (hsrc : (h.values "source").isSourceMember = false) :
    (processHit h).metadata.source = none ∧
    processHit h ∈ processHits hits ∧
    (processHits hits).length = hits.length := by
  refine ⟨?_, List.mem_map_of_mem _ hmem, List.length_map _ _⟩
  simp [processHit, hsrc, decodeSource]

/-- C5 witness: the bogus-source hit survives with a nulled source. -/
theorem c5_witness :
    (processHit hitBad).metadata.source = none ∧
    processHit hitBad ∈ processHits [hitBad] ∧
    (processHits [hitBad]).length = 1 :=
  c5_unknown_source_nulled [hitBad] hitBad (List.mem_singleton.mpr rfl)
    (by decide)

lemma getValuesAux_some (vals : String → FieldValue)
    (l : List (String × FieldValue)) (row : List FieldValue)
    (h : getValuesAux vals l = some row) :
    ∀ (i : Nat) (p : String × FieldValue), l.get? i = some p →
      row.get? i = some (pyOr (vals p.1) p.2) := by
  induction l generalizing row with
  | nil => intro i p hp; simp at hp
  | cons q ps ih =>
    intro i p hp
    simp only [getValuesAux] at h
    by_cases hx : pyOr (vals q.1) q.2 = FieldValue.required
    · rw [if_pos hx] at h; exact absurd h (by simp)
    · rw [if_neg hx] at h
      cases hrest : getValuesAux vals ps with
      | none => rw [hrest] at h; simp at h
      | some r =>
        rw [hrest] at h
        have hrow : row = pyOr (vals q.1) q.2 :: r := by
          simpa using h.symm
        subst hrow
        cases i with
        | zero =>
          have hq : p = q := by simpa using hp.symm
          simp [hq]
        | succ n =>
          simpa using ih r hrest n p (by simpa using hp)

/-- C10: `_get_values` treats a present-but-falsy value as absent
(`values.get(key) or default`): an empty `text` or an empty `embedding`
list rejects the chunk exactly as a missing required field does, and a
present `created_at` whose normalized timestamp is `0` (falsy) is
replaced by the schema default `-1` in the produced row (position 7 of
the `SCHEMA[1:]` alignment). -/
theorem c10_falsy_as_absent (ts : String → Int) (c : DocumentChunk) :
    (c.text = "" → getValues ts c = none) ∧
    (c.embedding = some [] → getValues ts c = none) ∧
    (∀ s row, c.metadata.created_at = some s → s ≠ "" → ts s = 0 →
      getValues ts c = some row →
      row.get? 7 = some (FieldValue.vint (-1))) := by
  refine ⟨?_, ?_, ?_⟩
  · intro h
    simp [getValues, SCHEMA, getValuesAux, chunkValues, pyOr,
      FieldValue.truthy, h]
  · intro h
    simp [getValues, SCHEMA, getValuesAux, chunkValues, pyOr,
      FieldValue.truthy, h]
  · intro s row hca hs hts hget
    have hidx := getValuesAux_some (chunkValues ts c) SCHEMA.tail row hget
      7 ("created_at", FieldValue.vint (-1)) (by decide)
    rw [hidx]
    simp [chunkValues, hca, hs, pyOr, FieldValue.truthy, hts]

/-- C10 witness: empty text and empty embedding are both skipped, and an
epoch-zero timestamp decays to the `-1` default. -/
theorem c10_witness :
    getValues (tsConst 0) emptyTextChunk = none ∧
    getValues (tsConst 0) emptyEmbChunk = none ∧
    (getValues (tsConst 0) fullChunk =
        some [FieldValue.vvec [1], FieldValue.vstr "t", FieldValue.vstr "d",
              FieldValue.vstr "s", FieldValue.vstr "c", FieldValue.vstr "email",
              FieldValue.vstr "u", FieldValue.vint (-1), FieldValue.vstr "a"] →
      [FieldValue.vvec [1], FieldValue.vstr "t", FieldValue.vstr "d",
       FieldValue.vstr "s", FieldValue.vstr "c", FieldValue.vstr "email",
       FieldValue.vstr "u", FieldValue.vint (-1),
       FieldValue.vstr "a"].get? 7 = some (FieldValue.vint (-1))) :=
  ⟨(c10_falsy_as_absent (tsConst 0) emptyTextChunk).1 rfl,
   (c10_falsy_as_absent (tsConst 0) emptyEmbChunk).2.1 rfl,
   (c10_falsy_as_absent (tsConst 0) fullChunk).2.2 "2023-01-01" _
     rfl (by decide) rfl⟩

/-- C6 (counterexample): the round-trip does not return the original
metadata for every fully populated chunk: `created_at` is stored as the
normalized integer timestamp and comes back as that integer's decimal
string, not as the caller's original date string. Instantiated with the
chunk dated "2023-01-01" and the normalizer mapping it to its actual
unix timestamp 1672531200. -/
theorem c6_roundtrip_counterexample :
    ¬ ∀ (ts : String → Int) (score : Int) (c : DocumentChunk),
        fullyPopulated c → roundTripExact ts score c := by
  intro hclaim
  have hfull : fullyPopulated fullChunk :=
    ⟨rfl, by decide, ⟨[1], rfl, by decide⟩, rfl, rfl, rfl, rfl,
     ⟨"2023-01-01", rfl, by decide⟩, rfl⟩
  have h2 := hclaim (tsConst 1672531200) 0 fullChunk hfull
    [FieldValue.vvec [1], FieldValue.vstr "t", FieldValue.vstr "d",
     FieldValue.vstr "s", FieldValue.vstr "c", FieldValue.vstr "email",
     FieldValue.vstr "u", FieldValue.vint 1672531200, FieldValue.vstr "a"]
    (by decide)
  have h3 := congrArg (fun r => r.metadata.created_at) h2
  exact absurd h3 (by decide)

lemma pyOr_vstr_default (x : String) :
    pyOr (FieldValue.vstr x) (FieldValue.vstr "") = FieldValue.vstr x := by
  by_cases h : x = "" <;> simp [pyOr, FieldValue.truthy, h]

lemma pyOr_keep (a dflt : FieldValue) (h : a.truthy = true) :
    pyOr a dflt = a := by
  simp [pyOr, h]

/-- C6 (amended): for a fully populated chunk, flattening via
`_get_values` and reassembling the row through the query-side hit logic
returns the original `text`, `id`, and every metadata field except
`created_at`, which comes back as the decimal string of the normalized
timestamp (`to_unix_timestamp` applied to the original date string);
equality with the original holds exactly when the original string
already was that decimal form. The hypotheses `s ≠ ""` and `ts s ≠ 0`
keep the populated timestamp non-falsy (else it decays to the schema
default, see C10). -/
theorem c6_roundtrip_amended (ts : String → Int) (score : Int)
    (c : DocumentChunk) (i did sid u a s : String) (m : Source)
    (v : List Int)
    (hid : c.id = some i) (htext : c.text ≠ "") (hemb : c.embedding = some v)
    (hv : v ≠ []) (hdid : c.metadata.document_id = some did)
    (hsid : c.metadata.source_id = some sid)
    (hsrc : c.metadata.source = some m) (hurl : c.metadata.url = some u)
    (hca : c.metadata.created_at = some s) (hs : s ≠ "") (hts : ts s ≠ 0)
    (hau : c.metadata.author = some a) :
    getValues ts c =
      some [FieldValue.vvec v, FieldValue.vstr c.text, FieldValue.vstr did,
            FieldValue.vstr sid, FieldValue.vstr i, FieldValue.vstr m.value,
            FieldValue.vstr u, FieldValue.vint (ts s), FieldValue.vstr a] ∧
    processHit (rowToHit
        [FieldValue.vvec v, FieldValue.vstr c.text, FieldValue.vstr did,
         FieldValue.vstr sid, FieldValue.vstr i, FieldValue.vstr m.value,
         FieldValue.vstr u, FieldValue.vint (ts s), FieldValue.vstr a]
        score) =
      { id := some i, text := c.text, score := score,
        metadata := { document_id := some did, source_id := some sid,
                      source := some m, url := some u,
                      created_at := some (toString (ts s)),
                      author := some a } } := by
  have hm : m.value ≠ "" := by cases m <;> decide
  constructor
  · simp [getValues, SCHEMA, getValuesAux, chunkValues, optStr,
      hid, hemb, hdid, hsid, hsrc, hurl, hca, hau,
      pyOr_keep, pyOr_vstr_default, FieldValue.truthy,
      htext, hv, hts, hm, hs]
  · cases m <;> rfl

/-- C6 witness: the amended round-trip at the concrete full chunk, with
the normalizer sending its date to 5. -/
theorem c6_witness :
    getValues (tsConst 5) fullChunk =
      some [FieldValue.vvec [1], FieldValue.vstr "t", FieldValue.vstr "d",
            FieldValue.vstr "s", FieldValue.vstr "c", FieldValue.vstr "email",
            FieldValue.vstr "u", FieldValue.vint 5, FieldValue.vstr "a"] ∧
    processHit (rowToHit
        [FieldValue.vvec [1], FieldValue.vstr "t", FieldValue.vstr "d",
         FieldValue.vstr "s", FieldValue.vstr "c", FieldValue.vstr "email",
         FieldValue.vstr "u", FieldValue.vint 5, FieldValue.vstr "a"] 0) =
      { id := some "c", text := "t", score := 0,
        metadata := { document_id := some "d", source_id := some "s",
                      source := some Source.email, url := some "u",
                      created_at := some "5", author := some "a" } } :=
  c6_roundtrip_amended (tsConst 5) 0 fullChunk "c" "d" "s" "u" "a"
    "2023-01-01" Source.email [1] rfl (by decide) rfl (by decide) rfl rfl
    rfl rfl rfl (by decide) (by decide) rfl

/-- C9 witness: a singleton query list, inspected at index 0. -/
theorem c9_witness :
    queryOp (tsConst 0) searchNone [] = [] ∧
    (queryOp (tsConst 0) searchNone [qEx]).length = 1 ∧
    (queryOp (tsConst 0) searchNone [qEx]).get ⟨0, by decide⟩ =
      singleQuery (tsConst 0) searchNone ([qEx].get ⟨0, by decide⟩) :=
  ⟨(c9_query_order (tsConst 0) searchNone [qEx]).1,
   (c9_query_order (tsConst 0) searchNone [qEx]).2.1,
   (c9_query_order (tsConst 0) searchNone [qEx]).2.2 0 (by decide) (by decide)⟩
